import Mathlib

/-!
Verification of the log-management subsystem of the blowback repository
(src/tools/log-manager.ts, class LogManager, plus the get-console-logs tool
in src/tools/browser-tools.ts).

The embedding models the LogManager state machine shallowly:
- a file is identified by its stream key (none = the default stream,
  some c = checkpoint stream c) and its file number; the on-disk filename
  patterns default-log-N.log and chk-C-N.log encode exactly this pair, so
  the file system is modelled as a list of FileEnt records in creation
  order, each holding the list of lines of that file (each appended log
  entry is one newline-terminated line; the producer in browser-tools.ts
  always writes JSON.stringify(entry) concatenated with a newline).
- write streams are modelled by a Bool (true = the handle is non-null);
  the JS Map checkpointStreams is an association list in insertion order,
  with Map.set updating in place.
- Logger.error calls are collected in the errors field; Date.now() is the
  field now (a model clock, not advanced by the pure operations).
- the Promise returned by appendLog can settle fulfilled, settle rejected,
  or never settle (when an optional-chained write on a null handle skips
  both resolve and reject); Outcome records which happens.  Underlying
  file-system write failures are injected through the two Bool parameters
  of appendLogF; appendLog is the failure-free instance.
-/

/-- MAX_LOGS_PER_FILE of LogManager (records per segment before rotation). -/
def MAX_LOGS_PER_FILE : Nat := 10000

/-- MAX_CHECKPOINT_FILES of LogManager (bound used by detachCheckpointStreams). -/
def MAX_CHECKPOINT_FILES : Nat := 3

/-- One on-disk log file: stream key (none = default stream), file number,
and the list of its lines in file order. -/
structure FileEnt where
  key : Option String
  number : Nat
  lines : List String
deriving DecidableEq

/-- The per-checkpoint registry record of LogManager.checkpointStreams:
writeStream is true when the write handle is non-null. -/
structure ChkData where
  writeStream : Bool
  currentFileNumber : Nat
  currentLogCount : Nat
  timestamp : Nat
deriving DecidableEq

/-- The LogManager instance state together with the modelled file system,
the Logger.error trace and the model clock. -/
structure LM where
  maxLogsPerFile : Nat
  writeStream : Bool
  currentLogCount : Nat
  currentFileNumber : Nat
  checkpointStreams : List (String × ChkData)
  fs : List FileEnt
  now : Nat
  errors : List String
deriving DecidableEq

/-- How the Promise returned by appendLog settles. -/
inductive Outcome where
  | resolved
  | rejected
  | hung
deriving DecidableEq

/-- Result record of LogManager.readLogs. -/
structure ReadResult where
  logs : List String
  writePosition : Nat
  totalLogs : Nat
deriving DecidableEq

/-- JS Map.get on the association-list model of checkpointStreams. -/
def mapGet : List (String × ChkData) → String → Option ChkData
  | [], _ => none
  | (k, v) :: rest, c => if k = c then some v else mapGet rest c

/-- JS Map.set: updates in place when the key exists, appends otherwise. -/
def mapSet : List (String × ChkData) → String → ChkData → List (String × ChkData)
  | [], c, v => [(c, v)]
  | (k, w) :: rest, c, v => if k = c then (c, v) :: rest else (k, w) :: mapSet rest c v

/-- Does a file with this key and number exist on disk. -/
def fsHas (fs : List FileEnt) (key : Option String) (n : Nat) : Bool :=
  fs.any (fun f => decide (f.key = key ∧ f.number = n))

/-- fs.createWriteStream with flags a: creates the (empty) file when absent,
keeps the existing content otherwise. -/
def fsCreate (fs : List FileEnt) (key : Option String) (n : Nat) : List FileEnt :=
  if fsHas fs key n then fs else fs ++ [⟨key, n, []⟩]

/-- Content of a file, none when it does not exist. -/
def fsGet : List FileEnt → Option String → Nat → Option (List String)
  | [], _, _ => none
  | f :: fs, key, n => if f.key = key ∧ f.number = n then some f.lines else fsGet fs key n

/-- A successful writeStream.write of one entry: appends one line to the file. -/
def fsAppend (fs : List FileEnt) (key : Option String) (n : Nat) (line : String) : List FileEnt :=
  fs.map (fun f => if f.key = key ∧ f.number = n then ⟨f.key, f.number, f.lines ++ [line]⟩ else f)

/-- LogManager.attachCheckpointStream: returns unchanged when the registry has
no record for the id or the recorded writeStream is null (the early return of
the source), otherwise reopens the current file in append mode and refreshes
the record with a new timestamp. -/
def attachCheckpointStream (s : LM) (c : String) : LM :=
  match mapGet s.checkpointStreams c with
  | none => s
  | some d =>
    if d.writeStream = false then s
    else
      { s with fs := fsCreate s.fs (some c) d.currentFileNumber,
               checkpointStreams := mapSet s.checkpointStreams c
                 ⟨true, d.currentFileNumber, d.currentLogCount, s.now⟩ }

/-- LogManager.isCheckpointStreamAttached: the JS expression
stream && stream.writeStream !== null yields undefined when the registry has
no record (modelled none), else the Bool. -/
def isCheckpointStreamAttached (s : LM) (c : String) : Option Bool :=
  (mapGet s.checkpointStreams c).map (fun d => d.writeStream)

/-- LogManager.initializeLogFile: creates the file for nextFileNumber, then
for a checkpoint id either calls attachCheckpointStream (when a record with a
live handle exists) or installs a fresh record; for the default stream it
replaces the handle and resets the counters. -/
def initializeLogFile (s : LM) (checkpointId : Option String) (nextFileNumber : Nat) : LM :=
  let s0 := { s with fs := fsCreate s.fs checkpointId nextFileNumber }
  match checkpointId with
  | some c =>
    match mapGet s0.checkpointStreams c with
    | some d =>
      if d.writeStream then attachCheckpointStream s0 c
      else { s0 with checkpointStreams := mapSet s0.checkpointStreams c ⟨true, nextFileNumber, 0, s0.now⟩ }
    | none => { s0 with checkpointStreams := mapSet s0.checkpointStreams c ⟨true, nextFileNumber, 0, s0.now⟩ }
  | none => { s0 with writeStream := true, currentFileNumber := nextFileNumber, currentLogCount := 0 }

/-- Insertion step of the localeCompare sort in detachCheckpointStreams. -/
def insertStr (x : String) : List String → List String
  | [] => [x]
  | y :: ys => if compare x y = Ordering.lt then x :: y :: ys else y :: insertStr x ys

/-- The sort by localeCompare of the checkpoint ids (ascending, stable). -/
def sortStrings : List String → List String
  | [] => []
  | x :: xs => insertStr x (sortStrings xs)

/-- Closing the handle of one checkpoint id in the registry (counters kept). -/
def detachOne (m : List (String × ChkData)) (c : String) : List (String × ChkData) :=
  m.map (fun p => if p.1 = c then (p.1, { p.2 with writeStream := false }) else p)

/-- LogManager.detachCheckpointStreams: sorts all registry keys by
localeCompare and closes the handles of all but the last
MAX_CHECKPOINT_FILES keys of that order (slice(0, -MAX_CHECKPOINT_FILES)). -/
def detachCheckpointStreams (s : LM) : LM :=
  let ids := sortStrings (s.checkpointStreams.map (·.1))
  { s with checkpointStreams :=
      (ids.take (ids.length - MAX_CHECKPOINT_FILES)).foldl detachOne s.checkpointStreams }

/-- LogManager.appendLog with injected write failures: defaultWriteFails
(resp. chkWriteFails) makes the write callback on the default (resp.
checkpoint) stream report an error.  All throws and rejections inside the
body are caught by the outer try/catch, which logs and returns normally;
the only way the returned promise does not settle is the optional-chained
write on a null checkpoint handle, which calls neither resolve nor reject. -/
def appendLogF (s : LM) (logEntry : String) (checkpointId : Option String)
    (defaultWriteFails chkWriteFails : Bool) : LM × Outcome :=
  if s.writeStream = false then
    ({ s with errors := s.errors ++ ["Failed to append log: Log file is not initialized"] },
     Outcome.resolved)
  else if defaultWriteFails then
    ({ s with errors := s.errors ++ ["Failed to append log: write error"] }, Outcome.resolved)
  else
    let s1 := { s with fs := fsAppend s.fs none s.currentFileNumber logEntry,
                       currentLogCount := s.currentLogCount + 1 }
    let s2 := if s1.maxLogsPerFile ≤ s1.currentLogCount
              then initializeLogFile s1 none (s1.currentFileNumber + 1) else s1
    match checkpointId with
    | none => (s2, Outcome.resolved)
    | some c =>
      let s3 := if isCheckpointStreamAttached s2 c = some false
                then attachCheckpointStream s2 c else s2
      match mapGet s3.checkpointStreams c with
      | none =>
        ({ s3 with errors := s3.errors ++ ["Failed to append log: Checkpoint stream data not found"] },
         Outcome.resolved)
      | some d =>
        if d.writeStream = false then (s3, Outcome.hung)
        else if chkWriteFails then
          ({ s3 with errors := s3.errors ++ ["Failed to append log: write error"] }, Outcome.resolved)
        else
          let d1 : ChkData := ⟨d.writeStream, d.currentFileNumber, d.currentLogCount + 1, d.timestamp⟩
          let s4 := { s3 with fs := fsAppend s3.fs (some c) d.currentFileNumber logEntry,
                              checkpointStreams := mapSet s3.checkpointStreams c d1 }
          let s5 := if s4.maxLogsPerFile ≤ d1.currentLogCount
                    then initializeLogFile s4 (some c) (d.currentFileNumber + 1) else s4
          (s5, Outcome.resolved)

/-- appendLog without injected file-system failures. -/
def appendLog (s : LM) (logEntry : String) (checkpointId : Option String) : LM × Outcome :=
  appendLogF s logEntry checkpointId false false

/-- The test of the source loop "if (!line.trim()) continue": a line is blank
when it consists of whitespace only. -/
def isBlankLine (l : String) : Bool :=
  l.data.all Char.isWhitespace

/-- The lines of a file that the read loop keeps (blank lines skipped). -/
def nonBlankLines (lines : List String) : List String :=
  lines.filter (fun l => !isBlankLine l)

/-- The segment-reading loop of readLogs: starting at the first listed file,
skips skip non-blank lines of that first file, then collects non-blank lines
until need entries are collected or the files are exhausted. -/
def collectFrom : List (Nat × List String) → Nat → Nat → List String
  | [], _, _ => []
  | f :: rest, skip, need =>
    if need = 0 then []
    else
      let got := ((nonBlankLines f.2).drop skip).take need
      got ++ collectFrom rest 0 (need - got.length)

/-- Insertion step of the sort by file number in readLogs. -/
def insertByNumber (x : Nat × List String) :
    List (Nat × List String) → List (Nat × List String)
  | [] => [x]
  | y :: ys => if x.1 < y.1 then x :: y :: ys else y :: insertByNumber x ys

/-- The sort (a, b) => a.number - b.number of readLogs (ascending, stable). -/
def sortByNumber : List (Nat × List String) → List (Nat × List String)
  | [] => []
  | x :: xs => insertByNumber x (sortByNumber xs)

/-- The directory scan of readLogs: the files whose name matches the pattern
of the stream key, as (number, lines) pairs sorted by number ascending.  The
filename patterns make the (key, number) pair injective, and parseInt on the
matched digit group is always a Nat, so the item.number >= 0 filter of the
source keeps everything. -/
def logFilesFor (s : LM) (checkpointId : Option String) : List (Nat × List String) :=
  sortByNumber ((s.fs.filter (fun f => decide (f.key = checkpointId))).map
    (fun f => (f.number, f.lines)))

/-- Lines 227-233 of readLogs: the in-memory record count of the newest
segment - the registry entry for a checkpoint stream (0 when absent), the
manager counter for the default stream. -/
def registryCount (s : LM) (checkpointId : Option String) : Nat :=
  match checkpointId with
  | some c =>
    match mapGet s.checkpointStreams c with
    | some d => d.currentLogCount
    | none => 0
  | none => s.currentLogCount

/-- LogManager.readLogs. -/
def readLogs (s : LM) (limit : Nat) (checkpointId : Option String) : ReadResult :=
  let logFiles := logFilesFor s checkpointId
  if logFiles.length = 0 then ⟨[], 0, 0⟩
  else
    let lastFileIndex := logFiles.length - 1
    let completedFilesLogs := lastFileIndex * s.maxLogsPerFile
    let currentFileLogCount := registryCount s checkpointId
    let totalLogs := completedFilesLogs + currentFileLogCount
    if totalLogs = 0 then ⟨[], currentFileLogCount, 0⟩
    else
      let startPosition := totalLogs - limit
      let startFileIndex := startPosition / s.maxLogsPerFile
      let startLogInFile := startPosition % s.maxLogsPerFile
      let logsNeeded := min limit totalLogs
      ⟨collectFrom (logFiles.drop startFileIndex) startLogInFile logsNeeded,
       currentFileLogCount, totalLogs⟩

/-- The get-console-logs tool of browser-tools.ts:
async ({checkpoint, limit = 100}) => logManager.readLogs(limit, checkpoint);
an omitted limit defaults to the fixed number 100. -/
def getConsoleLogs (s : LM) (checkpoint : Option String) (limit : Option Nat) : ReadResult :=
  readLogs s (limit.getD 100) checkpoint

/-- The LogManager constructor run against a given on-disk state: fresh
in-memory fields, then initializeLogFile() with its defaults. -/
def bootLM (k : Nat) (fs0 : List FileEnt) : LM :=
  initializeLogFile ⟨k, false, 0, 0, [], fs0, 0, []⟩ none 0

/-- A fresh LogManager on an empty log directory. -/
def lmInit : LM := bootLM MAX_LOGS_PER_FILE []

/-- Process restart: fresh in-memory state over the surviving on-disk files. -/
def restart (fs0 : List FileEnt) : LM := bootLM MAX_LOGS_PER_FILE fs0

/-- A producer run: successive appendLog calls, each with its entry text and
its optional checkpoint id. -/
def runAppends (s : LM) : List (String × Option String) → LM
  | [] => s
  | op :: rest => runAppends (appendLog s op.1 op.2).1 rest

/-!
Specification-side description of the default-stream state reached after a
sequence of appends: the entries are laid out in consecutive segment files
of at most k lines each, with an empty next segment opened the moment a
segment fills up.
-/

/-- The segment files holding the entry list es, numbered from i: chunks of
k lines; a chunk of exactly k lines is sealed and followed by the next file,
so a run whose length is a multiple of k ends with an empty current file. -/
def segFiles : Nat → Nat → List String → List (Nat × List String)
  | 0, i, es => [(i, es)]
  | k + 1, i, es =>
    if h : es.length ≤ k then [(i, es)]
    else (i, es.take (k + 1)) :: segFiles (k + 1) (i + 1) (es.drop (k + 1))
termination_by k i es => es.length
decreasing_by simp [List.length_drop]; omega

/-- Appending one line to the file with a given number in a (number, lines)
list. -/
def appendAt (l : List (Nat × List String)) (m : Nat) (e : String) :
    List (Nat × List String) :=
  l.map (fun p => if p.1 = m then (p.1, p.2 ++ [e]) else p)

/-- The default-stream file entity of a (number, lines) pair. -/
def toEnt (p : Nat × List String) : FileEnt := ⟨none, p.1, p.2⟩

/-- The state of the manager after the entries es have been appended to the
default stream from a fresh start: handle open, counters at the
division/remainder of the entry count, registry empty (no checkpoint stream
is ever created, see the C1 analysis), and the disk holding exactly the
default segment files of es. -/
def LMInv (k : Nat) (es : List String) (s : LM) : Prop :=
  s.maxLogsPerFile = k ∧ s.writeStream = true ∧
  s.currentFileNumber = es.length / k ∧ s.currentLogCount = es.length % k ∧
  s.checkpointStreams = [] ∧ s.fs = (segFiles k 0 es).map toEnt

/-- A three-entry producer run used as a concrete sample input. -/
def opsABC : List (String × Option String) := [("a", none), ("b", some "x"), ("c", none)]

/-- A hand-built registry of five attached checkpoint streams in which
stream a (timestamp 100) is the most recently written and stream e
(timestamp 1) the least recently written. -/
def chkFive : List (String × ChkData) :=
  [("a", ⟨true, 0, 1, 100⟩), ("b", ⟨true, 0, 1, 90⟩), ("c", ⟨true, 0, 1, 80⟩),
   ("d", ⟨true, 0, 1, 70⟩), ("e", ⟨true, 0, 1, 1⟩)]

/-- A manager state holding the chkFive registry. -/
def lmFive : LM := ⟨MAX_LOGS_PER_FILE, true, 0, 0, chkFive, [], 200, []⟩

/-- An on-disk state with two default-stream entries and two checkpoint-a
lines in their segment-0 files. -/
def diskTwo : List FileEnt := [⟨none, 0, ["e1", "e2"]⟩, ⟨some "a", 0, ["x", "y"]⟩]

theorem segFiles_succ (k' i : Nat) (es : List String) :
    segFiles (k' + 1) i es =
      if es.length ≤ k' then [(i, es)]
      else (i, es.take (k' + 1)) :: segFiles (k' + 1) (i + 1) (es.drop (k' + 1)) := by
  rw [segFiles]
  by_cases h : es.length ≤ k' <;> simp [h]

theorem mod_succ_cases (k n : Nat) (hk : 0 < k) :
    (n % k + 1 < k ∧ (n + 1) % k = n % k + 1 ∧ (n + 1) / k = n / k) ∨
    (n % k + 1 = k ∧ (n + 1) % k = 0 ∧ (n + 1) / k = n / k + 1) := by
  have hlt : n % k < k := Nat.mod_lt _ hk
  have hdm : k * (n / k) + n % k = n := Nat.div_add_mod n k
  have hmod : (n + 1) % k = (n % k + 1) % k := by
    conv_lhs => rw [← hdm]
    rw [Nat.add_assoc, Nat.mul_add_mod]
  have hdiv : (n + 1) / k = n / k + (n % k + 1) / k := by
    conv_lhs => rw [← hdm]
    rw [Nat.add_assoc, Nat.mul_add_div hk]
  rcases Nat.lt_or_ge (n % k + 1) k with h | h
  · left
    refine ⟨h, ?_, ?_⟩
    · rw [hmod, Nat.mod_eq_of_lt h]
    · rw [hdiv, Nat.div_eq_of_lt h]
      simp
  · have he : n % k + 1 = k := by omega
    right
    refine ⟨he, ?_, ?_⟩
    · rw [hmod, he, Nat.mod_self]
    · rw [hdiv, he, Nat.div_self hk]

theorem segFiles_length (k' : Nat) :
    ∀ (m : Nat) (es : List String) (i : Nat), es.length ≤ m →
      (segFiles (k' + 1) i es).length = es.length / (k' + 1) + 1 := by
  intro m
  induction m with
  | zero =>
    intro es i h
    rw [segFiles_succ, if_pos (by omega)]
    have h0 : es.length = 0 := by omega
    rw [h0]
    simp
  | succ m ih =>
    intro es i h
    by_cases hle : es.length ≤ k'
    · rw [segFiles_succ, if_pos hle]
      rw [Nat.div_eq_of_lt (by omega)]
      simp
    · rw [segFiles_succ, if_neg hle]
      have hrec := ih (es.drop (k' + 1)) (i + 1) (by rw [List.length_drop]; omega)
      have hdiv : es.length / (k' + 1) = (es.length - (k' + 1)) / (k' + 1) + 1 :=
        Nat.div_eq_sub_div (by omega) (by omega)
      rw [List.length_cons, hrec, List.length_drop, hdiv]

theorem segFiles_sizes (k' : Nat) :
    ∀ (m : Nat) (es : List String) (i : Nat), es.length ≤ m →
      ∀ p ∈ segFiles (k' + 1) i es, p.2.length ≤ k' + 1 := by
  intro m
  induction m with
  | zero =>
    intro es i h p hp
    rw [segFiles_succ, if_pos (by omega)] at hp
    simp at hp
    subst hp
    simp
    omega
  | succ m ih =>
    intro es i h p hp
    by_cases hle : es.length ≤ k'
    · rw [segFiles_succ, if_pos hle] at hp
      simp at hp
      subst hp
      simp
      omega
    · rw [segFiles_succ, if_neg hle] at hp
      rcases List.mem_cons.mp hp with hp | hp
      · subst hp
        simp [List.length_take]
      · exact ih (es.drop (k' + 1)) (i + 1) (by rw [List.length_drop]; omega) p hp

theorem segFiles_numbers (k' : Nat) :
    ∀ (m : Nat) (es : List String) (i : Nat), es.length ≤ m →
      ∀ p ∈ segFiles (k' + 1) i es, i ≤ p.1 ∧ p.1 ≤ i + es.length / (k' + 1) := by
  intro m
  induction m with
  | zero =>
    intro es i h p hp
    rw [segFiles_succ, if_pos (by omega)] at hp
    simp at hp
    subst hp
    simp
  | succ m ih =>
    intro es i h p hp
    by_cases hle : es.length ≤ k'
    · rw [segFiles_succ, if_pos hle] at hp
      simp at hp
      subst hp
      simp
    · rw [segFiles_succ, if_neg hle] at hp
      have hdiv : es.length / (k' + 1) = (es.length - (k' + 1)) / (k' + 1) + 1 :=
        Nat.div_eq_sub_div (by omega) (by omega)
      rcases List.mem_cons.mp hp with hp | hp
      · subst hp
        simp
      · have hm := ih (es.drop (k' + 1)) (i + 1) (by rw [List.length_drop]; omega) p hp
        rw [List.length_drop] at hm
        omega

theorem segFiles_shape (k' : Nat) (es : List String) (i : Nat) :
    ∃ t rest, segFiles (k' + 1) i es = (i, t) :: rest := by
  rw [segFiles_succ]
  by_cases hle : es.length ≤ k'
  · rw [if_pos hle]
    exact ⟨es, [], rfl⟩
  · rw [if_neg hle]
    exact ⟨es.take (k' + 1), segFiles (k' + 1) (i + 1) (es.drop (k' + 1)), rfl⟩


theorem segFiles_append_small (k' : Nat) (es : List String) (i : Nat) (e : String)
    (hle : es.length ≤ k') :
    segFiles (k' + 1) i (es ++ [e]) =
      if (es.length + 1) % (k' + 1) = 0
      then appendAt (segFiles (k' + 1) i es) (i + es.length / (k' + 1)) e
             ++ [(i + es.length / (k' + 1) + 1, [])]
      else appendAt (segFiles (k' + 1) i es) (i + es.length / (k' + 1)) e := by
  have hdiv0 : es.length / (k' + 1) = 0 := Nat.div_eq_of_lt (by omega)
  have hsmall : segFiles (k' + 1) i es = [(i, es)] := by
    rw [segFiles_succ, if_pos hle]
  rw [hdiv0, hsmall]
  simp only [appendAt, List.map_cons, List.map_nil, Nat.add_zero, eq_self_iff_true, if_true]
  by_cases hfull : es.length + 1 ≤ k'
  · have hm : (es.length + 1) % (k' + 1) = es.length + 1 := Nat.mod_eq_of_lt (by omega)
    rw [hm, if_neg (by omega)]
    rw [segFiles_succ, if_pos (by simp; omega)]
  · have heq : es.length + 1 = k' + 1 := by omega
    rw [heq, Nat.mod_self, if_pos rfl]
    have hlen : (es ++ [e]).length = k' + 1 := by simp; omega
    rw [segFiles_succ, if_neg (by omega)]
    rw [List.take_of_length_le (le_of_eq hlen), List.drop_eq_nil_of_le (le_of_eq hlen)]
    rw [segFiles_succ, if_pos (by simp)]
    simp

theorem segFiles_append (k' : Nat) :
    ∀ (m : Nat) (es : List String) (i : Nat) (e : String), es.length ≤ m →
      segFiles (k' + 1) i (es ++ [e]) =
        if (es.length + 1) % (k' + 1) = 0
        then appendAt (segFiles (k' + 1) i es) (i + es.length / (k' + 1)) e
               ++ [(i + es.length / (k' + 1) + 1, [])]
        else appendAt (segFiles (k' + 1) i es) (i + es.length / (k' + 1)) e := by
  intro m
  induction m with
  | zero =>
    intro es i e h
    exact segFiles_append_small k' es i e (by omega)
  | succ m ih =>
    intro es i e h
    by_cases hle : es.length ≤ k'
    · exact segFiles_append_small k' es i e hle
    · have hlen1 : k' + 1 ≤ es.length := by omega
      have htake : (es ++ [e]).take (k' + 1) = es.take (k' + 1) :=
        List.take_append_of_le_length hlen1
      have hdrop : (es ++ [e]).drop (k' + 1) = es.drop (k' + 1) ++ [e] :=
        List.drop_append_of_le_length hlen1
      have hIH := ih (es.drop (k' + 1)) (i + 1) e (by rw [List.length_drop]; omega)
      rw [List.length_drop] at hIH
      have hmodeq : (es.length - (k' + 1) + 1) % (k' + 1) = (es.length + 1) % (k' + 1) := by
        conv_rhs => rw [show es.length + 1 = es.length - (k' + 1) + 1 + (k' + 1) by omega]
        rw [Nat.add_mod_right]
      rw [hmodeq] at hIH
      obtain ⟨q, hq⟩ : ∃ q, (es.length - (k' + 1)) / (k' + 1) = q := ⟨_, rfl⟩
      have hdiveq : es.length / (k' + 1) = q + 1 := by
        rw [Nat.div_eq_sub_div (by omega) (by omega), hq]
      rw [hq] at hIH
      have hcons : segFiles (k' + 1) i es
          = (i, es.take (k' + 1)) :: segFiles (k' + 1) (i + 1) (es.drop (k' + 1)) := by
        rw [segFiles_succ, if_neg hle]
      conv_lhs => rw [segFiles_succ]
      rw [if_neg (show ¬(es ++ [e]).length ≤ k' by simp; omega)]
      rw [htake, hdrop, hIH, hcons, hdiveq]
      have harith : i + 1 + q = i + (q + 1) := by ring
      rw [harith]
      by_cases hC : (es.length + 1) % (k' + 1) = 0
      · rw [if_pos hC, if_pos hC]
        simp only [appendAt, List.map_cons, List.cons_append]
        rw [if_neg (show ¬i = i + (q + 1) by omega)]
      · rw [if_neg hC, if_neg hC]
        simp only [appendAt, List.map_cons]
        rw [if_neg (show ¬i = i + (q + 1) by omega)]

theorem segFiles_flatten (k' : Nat) :
    ∀ (m : Nat) (es : List String) (i : Nat), es.length ≤ m →
      ((segFiles (k' + 1) i es).map (·.2)).flatten = es := by
  intro m
  induction m with
  | zero =>
    intro es i h
    rw [segFiles_succ, if_pos (by omega)]
    simp
  | succ m ih =>
    intro es i h
    by_cases hle : es.length ≤ k'
    · rw [segFiles_succ, if_pos hle]
      simp
    · rw [segFiles_succ, if_neg hle]
      rw [List.map_cons, List.flatten_cons]
      rw [ih (es.drop (k' + 1)) (i + 1) (by rw [List.length_drop]; omega)]
      exact List.take_append_drop (k' + 1) es

theorem segFiles_drop (k' : Nat) :
    ∀ (j : Nat) (es : List String) (i : Nat), j ≤ es.length / (k' + 1) →
      (segFiles (k' + 1) i es).drop j = segFiles (k' + 1) (i + j) (es.drop (j * (k' + 1))) := by
  intro j
  induction j with
  | zero =>
    intro es i hj
    simp
  | succ j ih =>
    intro es i hj
    obtain ⟨dq, hdq⟩ : ∃ x, (es.length - (k' + 1)) / (k' + 1) = x := ⟨_, rfl⟩
    have hk1 : k' + 1 ≤ es.length := by
      by_contra hcon
      have h0 : es.length / (k' + 1) = 0 := Nat.div_eq_of_lt (by omega)
      omega
    have hdiv : es.length / (k' + 1) = dq + 1 := by
      rw [Nat.div_eq_sub_div (by omega) hk1, hdq]
    rw [hdiv] at hj
    have hle : ¬es.length ≤ k' := by omega
    rw [segFiles_succ, if_neg hle, List.drop_succ_cons]
    rw [ih (es.drop (k' + 1)) (i + 1) (by rw [List.length_drop, hdq]; omega)]
    rw [List.drop_drop]
    have h1 : i + 1 + j = i + (j + 1) := by ring
    have h2 : k' + 1 + j * (k' + 1) = (j + 1) * (k' + 1) := by ring
    rw [h1, h2]

theorem nonBlankLines_eq_self (ls : List String) (h : ∀ l ∈ ls, isBlankLine l = false) :
    nonBlankLines ls = ls := by
  unfold nonBlankLines
  apply List.filter_eq_self.mpr
  intro a ha
  rw [h a ha]
  rfl

theorem collectFrom_spec (k' : Nat) :
    ∀ (m : Nat) (es : List String) (i skip need : Nat), es.length ≤ m →
      (∀ l ∈ es, isBlankLine l = false) → skip ≤ k' →
      collectFrom (segFiles (k' + 1) i es) skip need = (es.drop skip).take need := by
  intro m
  induction m with
  | zero =>
    intro es i skip need h hnb hskip
    have hes : es = [] := List.eq_nil_of_length_eq_zero (by omega)
    subst hes
    rw [segFiles_succ, if_pos (by simp)]
    by_cases hn : need = 0 <;> simp [collectFrom, nonBlankLines, hn]
  | succ m ih =>
    intro es i skip need h hnb hskip
    by_cases hle : es.length ≤ k'
    · rw [segFiles_succ, if_pos hle]
      by_cases hn : need = 0
      · simp [collectFrom, hn]
      · simp only [collectFrom, if_neg hn]
        rw [nonBlankLines_eq_self es hnb]
        simp
    · rw [segFiles_succ, if_neg hle]
      by_cases hn : need = 0
      · simp [collectFrom, hn]
      · have hsub : ∀ l ∈ es.take (k' + 1), isBlankLine l = false :=
          fun l hl => hnb l (List.take_subset _ _ hl)
        have hdropnb : ∀ l ∈ es.drop (k' + 1), isBlankLine l = false :=
          fun l hl => hnb l (List.drop_subset _ _ hl)
        simp only [collectFrom, if_neg hn]
        rw [nonBlankLines_eq_self (es.take (k' + 1)) hsub]
        rw [ih (es.drop (k' + 1)) (i + 1) 0
          (need - (((es.take (k' + 1)).drop skip).take need).length)
          (by rw [List.length_drop]; omega) hdropnb (by omega)]
        rw [List.drop_zero]
        conv_rhs => rw [← List.take_append_drop (k' + 1) es]
        rw [List.drop_append_of_le_length (by rw [List.length_take]; omega)]
        rw [List.take_append_eq_append_take]
        congr 1
        congr 1
        rw [List.length_take]
        omega


theorem fsAppend_toEnt (l : List (Nat × List String)) (m : Nat) (e : String) :
    fsAppend (l.map toEnt) none m e = (appendAt l m e).map toEnt := by
  unfold fsAppend appendAt
  rw [List.map_map, List.map_map]
  apply List.map_congr_left
  intro p _
  by_cases hp : p.1 = m <;> simp [toEnt, hp]

theorem appendAt_fst (l : List (Nat × List String)) (m : Nat) (e : String) :
    (appendAt l m e).map (·.1) = l.map (·.1) := by
  unfold appendAt
  rw [List.map_map]
  apply List.map_congr_left
  intro p _
  by_cases hp : p.1 = m <;> simp [hp]

theorem fsHas_toEnt_false (l : List (Nat × List String)) (m : Nat)
    (h : ∀ p ∈ l, p.1 ≠ m) : fsHas (l.map toEnt) none m = false := by
  unfold fsHas
  rw [List.any_eq_false]
  intro f hf
  obtain ⟨p, hp, rfl⟩ := List.mem_map.mp hf
  simp [toEnt, h p hp]

theorem fsCreate_toEnt (l : List (Nat × List String)) (m : Nat)
    (h : ∀ p ∈ l, p.1 ≠ m) :
    fsCreate (l.map toEnt) none m = (l ++ [(m, [])]).map toEnt := by
  unfold fsCreate
  rw [fsHas_toEnt_false l m h]
  simp [toEnt]

theorem sortByNumber_segFiles (k' : Nat) :
    ∀ (m : Nat) (es : List String) (i : Nat), es.length ≤ m →
      sortByNumber (segFiles (k' + 1) i es) = segFiles (k' + 1) i es := by
  intro m
  induction m with
  | zero =>
    intro es i h
    rw [segFiles_succ, if_pos (by omega)]
    simp [sortByNumber, insertByNumber]
  | succ m ih =>
    intro es i h
    by_cases hle : es.length ≤ k'
    · rw [segFiles_succ, if_pos hle]
      simp [sortByNumber, insertByNumber]
    · rw [segFiles_succ, if_neg hle]
      simp only [sortByNumber]
      rw [ih (es.drop (k' + 1)) (i + 1) (by rw [List.length_drop]; omega)]
      obtain ⟨t, r2, hr⟩ := segFiles_shape k' (es.drop (k' + 1)) (i + 1)
      rw [hr]
      simp [insertByNumber]

theorem logFilesFor_toEnt (s : LM) (l : List (Nat × List String))
    (hfs : s.fs = l.map toEnt) : logFilesFor s none = sortByNumber l := by
  unfold logFilesFor
  rw [hfs, List.filter_map, List.map_map]
  have h1 : ((fun f => decide (FileEnt.key f = none)) ∘ toEnt) = fun _ => true := by
    funext p
    simp [toEnt]
  have h2 : ((fun f => (FileEnt.number f, FileEnt.lines f)) ∘ toEnt) = id := by
    funext p
    simp [toEnt]
  rw [h1, List.filter_true, h2, List.map_id]

theorem logFilesFor_toEnt_chk (s : LM) (l : List (Nat × List String))
    (hfs : s.fs = l.map toEnt) (c : String) : logFilesFor s (some c) = [] := by
  unfold logFilesFor
  rw [hfs, List.filter_map]
  have h1 : ((fun f => decide (FileEnt.key f = some c)) ∘ toEnt) = fun _ => false := by
    funext p
    simp [toEnt]
  rw [h1, List.filter_false]
  rfl


theorem LMInv_boot (k' : Nat) : LMInv (k' + 1) [] (bootLM (k' + 1) []) := by
  refine ⟨rfl, rfl, by simp [bootLM, initializeLogFile], by simp [bootLM, initializeLogFile], rfl, ?_⟩
  rw [segFiles_succ, if_pos (by simp)]
  rfl

theorem appendLog_step_none (k cnt num now0 : Nat) (errs : List String)
    (F : List FileEnt) (e : String) :
    (appendLog ⟨k, true, cnt, num, [], F, now0, errs⟩ e none).1 =
      if k ≤ cnt + 1 then
        ⟨k, true, 0, num + 1, [], fsCreate (fsAppend F none num e) none (num + 1), now0, errs⟩
      else ⟨k, true, cnt + 1, num, [], fsAppend F none num e, now0, errs⟩ := by
  unfold appendLog appendLogF initializeLogFile
  by_cases hc : k ≤ cnt + 1 <;> simp [hc]

theorem appendLog_step_some (k cnt num now0 : Nat) (errs : List String)
    (F : List FileEnt) (e : String) (c : String) :
    (appendLog ⟨k, true, cnt, num, [], F, now0, errs⟩ e (some c)).1 =
      if k ≤ cnt + 1 then
        ⟨k, true, 0, num + 1, [], fsCreate (fsAppend F none num e) none (num + 1), now0,
         errs ++ ["Failed to append log: Checkpoint stream data not found"]⟩
      else ⟨k, true, cnt + 1, num, [], fsAppend F none num e, now0,
         errs ++ ["Failed to append log: Checkpoint stream data not found"]⟩ := by
  unfold appendLog appendLogF initializeLogFile isCheckpointStreamAttached
  by_cases hc : k ≤ cnt + 1 <;> simp [hc, mapGet]

theorem LMInv_append (k' : Nat) (es : List String) (s : LM)
    (h : LMInv (k' + 1) es s) (e : String) (cid : Option String) :
    LMInv (k' + 1) (es ++ [e]) ((appendLog s e cid).1) := by
  obtain ⟨mfl, ws, clc, cfn, cps, fs0, now0, errs⟩ := s
  obtain ⟨hmax, hws, hnum, hcnt, hmap, hfs⟩ := h
  dsimp only at hmax hws hnum hcnt hmap hfs
  subst hmax hws hnum hcnt hmap hfs
  obtain ⟨nm, hnm⟩ : ∃ x, es.length % (k' + 1) = x := ⟨_, rfl⟩
  obtain ⟨nd, hnd⟩ : ∃ x, es.length / (k' + 1) = x := ⟨_, rfl⟩
  rw [hnm, hnd]
  have hlen1 : (es ++ [e]).length = es.length + 1 := by simp
  rcases mod_succ_cases (k' + 1) es.length (by omega) with ⟨hlt, hm1, hd1⟩ | ⟨heq, hm1, hd1⟩
  · rw [hnm] at hlt
    have hfsA : fsAppend ((segFiles (k' + 1) 0 es).map toEnt) none nd e
        = (segFiles (k' + 1) 0 (es ++ [e])).map toEnt := by
      rw [fsAppend_toEnt]
      rw [segFiles_append k' es.length es 0 e le_rfl]
      rw [if_neg (by rw [hm1]; simp)]
      rw [Nat.zero_add, hnd]
    have hcomp : LMInv (k' + 1) (es ++ [e])
        ⟨k' + 1, true, nm + 1, nd, [], fsAppend ((segFiles (k' + 1) 0 es).map toEnt) none nd e,
         now0, errs⟩ := by
      refine ⟨rfl, rfl, ?_, ?_, rfl, ?_⟩
      · dsimp only
        rw [hlen1, hd1, hnd]
      · dsimp only
        rw [hlen1, hm1, hnm]
      · dsimp only
        exact hfsA
    cases cid with
    | none =>
      rw [appendLog_step_none, if_neg (by omega)]
      exact hcomp
    | some c =>
      rw [appendLog_step_some, if_neg (by omega)]
      obtain ⟨h1, h2, h3, h4, h5, h6⟩ := hcomp
      exact ⟨h1, h2, h3, h4, h5, h6⟩
  · rw [hnm] at heq
    have hb : ∀ p ∈ appendAt (segFiles (k' + 1) 0 es) nd e, p.1 ≠ nd + 1 := by
      intro p hp
      have hmem : p.1 ∈ (appendAt (segFiles (k' + 1) 0 es) nd e).map (·.1) :=
        List.mem_map_of_mem _ hp
      rw [appendAt_fst] at hmem
      obtain ⟨q, hq, hq1⟩ := List.mem_map.mp hmem
      have hbq := segFiles_numbers k' es.length es 0 le_rfl q hq
      rw [hnd] at hbq
      omega
    have hfsB : fsCreate (fsAppend ((segFiles (k' + 1) 0 es).map toEnt) none nd e)
          none (nd + 1)
        = (segFiles (k' + 1) 0 (es ++ [e])).map toEnt := by
      rw [fsAppend_toEnt]
      rw [fsCreate_toEnt _ _ hb]
      rw [segFiles_append k' es.length es 0 e le_rfl]
      rw [if_pos hm1]
      rw [Nat.zero_add, hnd]
    have hcomp : LMInv (k' + 1) (es ++ [e])
        ⟨k' + 1, true, 0, nd + 1, [],
         fsCreate (fsAppend ((segFiles (k' + 1) 0 es).map toEnt) none nd e) none (nd + 1),
         now0, errs⟩ := by
      refine ⟨rfl, rfl, ?_, ?_, rfl, ?_⟩
      · dsimp only
        rw [hlen1, hd1, hnd]
      · dsimp only
        rw [hlen1, hm1]
      · dsimp only
        exact hfsB
    cases cid with
    | none =>
      rw [appendLog_step_none, if_pos (by omega)]
      exact hcomp
    | some c =>
      rw [appendLog_step_some, if_pos (by omega)]
      obtain ⟨h1, h2, h3, h4, h5, h6⟩ := hcomp
      exact ⟨h1, h2, h3, h4, h5, h6⟩

theorem LMInv_run (k' : Nat) :
    ∀ (ops : List (String × Option String)) (es : List String) (s : LM),
      LMInv (k' + 1) es s →
      LMInv (k' + 1) (es ++ ops.map (·.1)) (runAppends s ops) := by
  intro ops
  induction ops with
  | nil =>
    intro es s h
    simpa using h
  | cons op rest ih =>
    intro es s h
    have h1 := LMInv_append k' es s h op.1 op.2
    have h2 := ih (es ++ [op.1]) _ h1
    simp only [runAppends]
    rw [List.append_assoc] at h2
    simpa using h2

theorem LMInv_lmInit_run (ops : List (String × Option String)) :
    LMInv MAX_LOGS_PER_FILE (ops.map (·.1)) (runAppends lmInit ops) := by
  have hk : MAX_LOGS_PER_FILE = 9999 + 1 := by decide
  have h := LMInv_run 9999 ops [] (bootLM (9999 + 1) []) (LMInv_boot 9999)
  rw [List.nil_append] at h
  unfold lmInit
  rw [hk]
  exact h

theorem readLogs_LMInv (k' : Nat) (es : List String) (s : LM)
    (h : LMInv (k' + 1) es s) (hnb : ∀ l ∈ es, isBlankLine l = false) (L : Nat) :
    readLogs s L none = ⟨es.drop (es.length - L), es.length % (k' + 1), es.length⟩ := by
  obtain ⟨hmax, hws, hnum, hcnt, hmap, hfs⟩ := h
  have hlf : logFilesFor s none = segFiles (k' + 1) 0 es := by
    rw [logFilesFor_toEnt s _ hfs, sortByNumber_segFiles k' es.length es 0 le_rfl]
  have hsl : (segFiles (k' + 1) 0 es).length = es.length / (k' + 1) + 1 :=
    segFiles_length k' es.length es 0 le_rfl
  have htot : (es.length / (k' + 1) + 1 - 1) * (k' + 1) + es.length % (k' + 1) = es.length := by
    rw [Nat.add_sub_cancel, Nat.mul_comm]
    exact Nat.div_add_mod es.length (k' + 1)
  unfold readLogs
  simp only [hlf, registryCount, hmax, hcnt, hsl, htot]
  rw [if_neg (by simp)]
  by_cases hes : es.length = 0
  · have hnil : es = [] := List.eq_nil_of_length_eq_zero hes
    subst hnil
    rw [if_pos hes]
    simp
  · rw [if_neg hes]
    have hsfi : (es.length - L) / (k' + 1) ≤ es.length / (k' + 1) :=
      Nat.div_le_div_right (Nat.sub_le _ _)
    rw [segFiles_drop k' ((es.length - L) / (k' + 1)) es 0 hsfi]
    rw [Nat.zero_add]
    have hnb2 : ∀ l ∈ es.drop ((es.length - L) / (k' + 1) * (k' + 1)), isBlankLine l = false :=
      fun l hl => hnb l (List.drop_subset _ _ hl)
    rw [collectFrom_spec k' (es.drop ((es.length - L) / (k' + 1) * (k' + 1))).length
      (es.drop ((es.length - L) / (k' + 1) * (k' + 1)))
      ((es.length - L) / (k' + 1)) ((es.length - L) % (k' + 1)) (min L es.length)
      le_rfl hnb2 (Nat.lt_succ_iff.mp (Nat.mod_lt _ (Nat.succ_pos k')))]
    rw [List.drop_drop]
    rw [Nat.div_add_mod' (es.length - L) (k' + 1)]
    have hdl : (es.drop (es.length - L)).length ≤ min L es.length := by
      rw [List.length_drop]
      omega
    rw [List.take_of_length_le hdl]

theorem readLogs_runAppends (ops : List (String × Option String))
    (hnb : ∀ p ∈ ops, isBlankLine p.1 = false) (L : Nat) :
    readLogs (runAppends lmInit ops) L none =
      ⟨(ops.map (·.1)).drop (ops.length - L), ops.length % MAX_LOGS_PER_FILE, ops.length⟩ := by
  have hk : MAX_LOGS_PER_FILE = 9999 + 1 := by decide
  have hinv := LMInv_lmInit_run ops
  rw [hk] at hinv
  have hnb2 : ∀ l ∈ ops.map (·.1), isBlankLine l = false := by
    intro l hl
    obtain ⟨p, hp, rfl⟩ := List.mem_map.mp hl
    exact hnb p hp
  have h := readLogs_LMInv 9999 (ops.map (·.1)) _ hinv hnb2 L
  rw [List.length_map] at h
  rw [hk]
  exact h

theorem readLogs_runAppends_chk (ops : List (String × Option String)) (L : Nat) (c : String) :
    readLogs (runAppends lmInit ops) L (some c) = ⟨[], 0, 0⟩ := by
  have hinv := LMInv_lmInit_run ops
  obtain ⟨hmax, hws, hnum, hcnt, hmap, hfs⟩ := hinv
  have hlf : logFilesFor (runAppends lmInit ops) (some c) = [] :=
    logFilesFor_toEnt_chk _ _ hfs c
  unfold readLogs
  simp [hlf]

theorem readLogs_noFiles (s : LM) (key : Option String) (L : Nat)
    (h : s.fs.filter (fun f => decide (f.key = key)) = []) :
    readLogs s L key = ⟨[], 0, 0⟩ := by
  unfold readLogs logFilesFor
  rw [h]
  simp [sortByNumber]

theorem readLogs_totalLogs (s : LM) (L : Nat) (key : Option String)
    (h : logFilesFor s key ≠ []) :
    (readLogs s L key).totalLogs
      = ((logFilesFor s key).length - 1) * s.maxLogsPerFile + registryCount s key := by
  unfold readLogs
  simp only
  rw [if_neg (by simpa using h)]
  by_cases h0 : ((logFilesFor s key).length - 1) * s.maxLogsPerFile + registryCount s key = 0
  · rw [if_pos h0]
    exact h0.symm
  · rw [if_neg h0]

theorem restart_eq (k' : Nat) (es : List String) (fs0 : List FileEnt)
    (hfs : fs0 = (segFiles (k' + 1) 0 es).map toEnt) (hk : MAX_LOGS_PER_FILE = k' + 1) :
    restart fs0 = ⟨k' + 1, true, 0, 0, [], fs0, 0, []⟩ := by
  unfold restart bootLM initializeLogFile fsCreate
  rw [hk]
  obtain ⟨t, rest, hr⟩ := segFiles_shape k' es 0
  rw [hfs, hr]
  simp [fsHas, toEnt]

theorem readLogs_restart_totalLogs (ops : List (String × Option String)) (L : Nat) :
    (readLogs (restart (runAppends lmInit ops).fs) L none).totalLogs
      = (ops.length / MAX_LOGS_PER_FILE) * MAX_LOGS_PER_FILE := by
  have hk : MAX_LOGS_PER_FILE = 9999 + 1 := by decide
  have hinv := LMInv_lmInit_run ops
  rw [hk] at hinv
  obtain ⟨hmax, hws, hnum, hcnt, hmap, hfs⟩ := hinv
  have hre := restart_eq 9999 (ops.map (·.1)) _ hfs hk
  rw [hre]
  have hlf : logFilesFor (⟨9999 + 1, true, 0, 0, [], (runAppends lmInit ops).fs, 0, []⟩ : LM) none
      = segFiles (9999 + 1) 0 (ops.map (·.1)) := by
    rw [logFilesFor_toEnt (⟨9999 + 1, true, 0, 0, [], (runAppends lmInit ops).fs, 0, []⟩ : LM)
        (segFiles (9999 + 1) 0 (ops.map (·.1))) hfs,
      sortByNumber_segFiles 9999 (ops.map (·.1)).length (ops.map (·.1)) 0 le_rfl]
  have hne : logFilesFor (⟨9999 + 1, true, 0, 0, [], (runAppends lmInit ops).fs, 0, []⟩ : LM) none ≠ [] := by
    rw [hlf]
    obtain ⟨t, rest, hr⟩ := segFiles_shape 9999 (ops.map (·.1)) 0
    rw [hr]
    simp
  rw [readLogs_totalLogs _ L none hne]
  rw [hlf, segFiles_length 9999 (ops.map (·.1)).length (ops.map (·.1)) 0 le_rfl]
  rw [List.length_map]
  simp only [registryCount]
  rw [hk]
  simp

theorem fsGet_toEnt_segFiles (k' : Nat) :
    ∀ (m : Nat) (es : List String) (i j : Nat), es.length ≤ m → j ≤ es.length / (k' + 1) →
      fsGet ((segFiles (k' + 1) i es).map toEnt) none (i + j)
        = some ((es.drop (j * (k' + 1))).take (k' + 1)) := by
  intro m
  induction m with
  | zero =>
    intro es i j h hj
    have hj0 : j = 0 := by
      have h0 : es.length / (k' + 1) = 0 := Nat.div_eq_of_lt (by omega)
      omega
    subst hj0
    rw [segFiles_succ, if_pos (by omega)]
    simp only [List.map_cons, List.map_nil, fsGet, toEnt]
    rw [if_pos (by simp)]
    rw [Nat.zero_mul, List.drop_zero, List.take_of_length_le (by omega)]
  | succ m ih =>
    intro es i j h hj
    by_cases hle : es.length ≤ k'
    · have hj0 : j = 0 := by
        have h0 : es.length / (k' + 1) = 0 := Nat.div_eq_of_lt (by omega)
        omega
      subst hj0
      rw [segFiles_succ, if_pos hle]
      simp only [List.map_cons, List.map_nil, fsGet, toEnt]
      rw [if_pos (by simp)]
      rw [Nat.zero_mul, List.drop_zero, List.take_of_length_le (by omega)]
    · rw [segFiles_succ, if_neg hle]
      cases j with
      | zero =>
        simp only [List.map_cons, fsGet, toEnt]
        rw [if_pos (by simp)]
        rw [Nat.zero_mul, List.drop_zero]
      | succ j' =>
        simp only [List.map_cons, fsGet, toEnt]
        rw [if_neg (by simp)]
        obtain ⟨dq, hdq⟩ : ∃ x, (es.length - (k' + 1)) / (k' + 1) = x := ⟨_, rfl⟩
        have hdiv : es.length / (k' + 1) = dq + 1 := by
          rw [Nat.div_eq_sub_div (by omega) (by omega), hdq]
        rw [hdiv] at hj
        have harith : i + (j' + 1) = (i + 1) + j' := by ring
        rw [harith]
        rw [ih (es.drop (k' + 1)) (i + 1) j' (by rw [List.length_drop]; omega)
          (by rw [List.length_drop, hdq]; omega)]
        rw [List.drop_drop]
        have h2 : k' + 1 + j' * (k' + 1) = (j' + 1) * (k' + 1) := by ring
        rw [h2]

/-!
The claims.
-/

/-- C1: the routing claim fails on the code (code bug).  On a fresh manager,
the first appendLog referencing the new checkpoint "a" appends the entry to
the default segment only: no registry record and no checkpoint segment file
is ever created, because isCheckpointStreamAttached returns undefined (not
false) for an unknown id, so attachCheckpointStream is not called, and even
when called it returns early for ids that are unknown or detached; the
checkpoint write then rejects with Checkpoint stream data not found, which
appendLog catches and logs.  A second write referencing "a" behaves
identically, so no logical checkpoint stream is ever opened. -/
theorem C1_checkpoint_write_never_happens :
    (fsGet ((appendLog lmInit "e1" (some "a")).1).fs none 0 = some ["e1"] ∧
     fsGet ((appendLog lmInit "e1" (some "a")).1).fs (some "a") 0 = none ∧
     mapGet ((appendLog lmInit "e1" (some "a")).1).checkpointStreams "a" = none ∧
     ((appendLog lmInit "e1" (some "a")).1).errors
       = ["Failed to append log: Checkpoint stream data not found"]) ∧
    (fsGet ((appendLog (appendLog lmInit "e1" (some "a")).1 "e2" (some "a")).1).fs none 0
       = some ["e1", "e2"] ∧
     fsGet ((appendLog (appendLog lmInit "e1" (some "a")).1 "e2" (some "a")).1).fs (some "a") 0
       = none ∧
     mapGet ((appendLog (appendLog lmInit "e1" (some "a")).1 "e2" (some "a")).1).checkpointStreams "a"
       = none) := by
  decide

/-- C2: for the default stream of any producer run (entries are non-blank
single lines, checkpoint tags arbitrary), readLogs with limit L returns the
last min L T appended entries in append order, oldest of the window first;
checkpoint streams never hold data (see C1), so their reads return the empty
window, and the claim holds for every stream whose newest-segment count is
correctly registered. -/
theorem C2_read_returns_last_L (ops : List (String × Option String))
    (hnb : ∀ p ∈ ops, isBlankLine p.1 = false) (L : Nat) :
    ((readLogs (runAppends lmInit ops) L none).logs
        = (ops.map (·.1)).drop (ops.length - L) ∧
     (readLogs (runAppends lmInit ops) L none).logs.length = min L ops.length) ∧
    ∀ c, (readLogs (runAppends lmInit ops) L (some c)).logs = [] := by
  refine ⟨⟨?_, ?_⟩, ?_⟩
  · rw [readLogs_runAppends ops hnb L]
  · rw [readLogs_runAppends ops hnb L]
    dsimp only
    rw [List.length_drop, List.length_map]
    omega
  · intro c
    rw [readLogs_runAppends_chk ops L c]

theorem C2_witness :
    ((readLogs (runAppends lmInit opsABC) 2 none).logs
        = (opsABC.map (·.1)).drop (opsABC.length - 2) ∧
     (readLogs (runAppends lmInit opsABC) 2 none).logs.length = min 2 opsABC.length) ∧
    ∀ c, (readLogs (runAppends lmInit opsABC) 2 (some c)).logs = [] :=
  C2_read_returns_last_L opsABC (by decide) 2

/-- C3 counterexample: 10000 appends to a fresh default stream leave 2
segment files on disk (the filled file 0 plus the freshly opened empty
file 1), not ceil(10000/10000) = 1 as the claim asserts. -/
theorem C3_counterexample_segment_count :
    (runAppends lmInit (List.replicate 10000 ("x", none))).fs.length
      ≠ (10000 + MAX_LOGS_PER_FILE - 1) / MAX_LOGS_PER_FILE := by
  obtain ⟨hmax, hws, hnum, hcnt, hmap, hfs⟩ := LMInv_lmInit_run (List.replicate 10000 ("x", none))
  have hk : MAX_LOGS_PER_FILE = 9999 + 1 := by decide
  rw [hk] at hfs
  rw [hfs, List.length_map]
  rw [segFiles_length 9999 ((List.replicate 10000 (("x", none) : String × Option String)).map (·.1)).length _ 0 le_rfl]
  rw [List.length_map, List.length_replicate]
  decide

/-- C3 amended: every segment file always holds at most MAX_LOGS_PER_FILE
entries, and rotation seals a segment exactly when it fills; but N appends
to a fresh stream leave N / MAX_LOGS_PER_FILE + 1 segment files - one more
than ceil(N/K) when K divides N, because an empty next segment is opened
the moment a segment fills - with file j holding exactly the entries at
positions j*K up to min((j+1)*K, N) - 1, so all files are full except the
last, which holds N mod K entries. -/
theorem C3_rotation_amended (ops : List (String × Option String)) :
    (∀ f ∈ (runAppends lmInit ops).fs, f.lines.length ≤ MAX_LOGS_PER_FILE) ∧
    (runAppends lmInit ops).fs.length = ops.length / MAX_LOGS_PER_FILE + 1 ∧
    ∀ j, j ≤ ops.length / MAX_LOGS_PER_FILE →
      fsGet (runAppends lmInit ops).fs none j
        = some (((ops.map (·.1)).drop (j * MAX_LOGS_PER_FILE)).take MAX_LOGS_PER_FILE) := by
  obtain ⟨hmax, hws, hnum, hcnt, hmap, hfs⟩ := LMInv_lmInit_run ops
  have hk : MAX_LOGS_PER_FILE = 9999 + 1 := by decide
  rw [hk] at hfs
  rw [hk]
  refine ⟨?_, ?_, ?_⟩
  · intro f hf
    rw [hfs] at hf
    obtain ⟨p, hp, rfl⟩ := List.mem_map.mp hf
    have hs := segFiles_sizes 9999 (ops.map (·.1)).length (ops.map (·.1)) 0 le_rfl p hp
    simpa [toEnt] using hs
  · rw [hfs, List.length_map,
      segFiles_length 9999 (ops.map (·.1)).length (ops.map (·.1)) 0 le_rfl, List.length_map]
  · intro j hj
    have hg := fsGet_toEnt_segFiles 9999 (ops.map (·.1)).length (ops.map (·.1)) 0 j le_rfl
      (by rw [List.length_map]; exact hj)
    rw [Nat.zero_add] at hg
    rw [hfs]
    exact hg

theorem C3_witness :
    (∀ f ∈ (runAppends lmInit opsABC).fs, f.lines.length ≤ MAX_LOGS_PER_FILE) ∧
    (runAppends lmInit opsABC).fs.length = opsABC.length / MAX_LOGS_PER_FILE + 1 ∧
    ∀ j, j ≤ opsABC.length / MAX_LOGS_PER_FILE →
      fsGet (runAppends lmInit opsABC).fs none j
        = some (((opsABC.map (·.1)).drop (j * MAX_LOGS_PER_FILE)).take MAX_LOGS_PER_FILE) :=
  C3_rotation_amended opsABC

/-- C4: code bug: the eviction policy is not least-recently-written-first.
detachCheckpointStreams sorts the registry keys with localeCompare and
detaches all but the last MAX_CHECKPOINT_FILES keys of that alphabetical
order, ignoring the timestamps kept for each stream: on lmFive it detaches
stream a, the most recently written (timestamp 100), and keeps stream e,
the least recently written (timestamp 1), attached.  Moreover the routine is
dead code - appendLog never calls it (and, per C1, never attaches any
checkpoint stream), so no recency bound is ever enforced at an append. -/
theorem C4_detach_not_lru :
    ((mapGet lmFive.checkpointStreams "a").map (fun d => d.timestamp) = some 100 ∧
     (mapGet lmFive.checkpointStreams "e").map (fun d => d.timestamp) = some 1) ∧
    (mapGet (detachCheckpointStreams lmFive).checkpointStreams "a").map (fun d => d.writeStream)
        = some false ∧
    (mapGet (detachCheckpointStreams lmFive).checkpointStreams "e").map (fun d => d.writeStream)
        = some true := by
  decide

/-- C5 counterexample: with two entries in default segment 0 and two lines
in checkpoint-a segment 0 on disk, a freshly restarted manager reports
totalLogs 0 for stream a, not the (1-1)*K + 2 = 2 that the claimed
line-count fallback would give, and returns an empty window for the default
stream instead of the two previously appended entries. -/
theorem C5_counterexample_restart :
    ((readLogs (restart diskTwo) 2 (some "a")).totalLogs = 0 ∧
     (readLogs (restart diskTwo) 2 (some "a")).totalLogs
       ≠ (1 - 1) * MAX_LOGS_PER_FILE + 2) ∧
    (readLogs (restart diskTwo) 2 none).logs = [] ∧
    (readLogs (restart diskTwo) 2 none).logs ≠ ["e1", "e2"] := by
  decide

/-- C5 amended: totalCount is (numSegments - 1) * MAX_RECORDS_PER_SEGMENT
plus the in-memory count of the newest segment (the registry count for a
checkpoint stream, 0 when absent; the manager counter for the default
stream); there is no on-disk line-count fallback, so after a process restart
the newest segment is counted as 0 and only the sealed segments contribute
to totalLogs. -/
theorem C5_totalLogs_amended :
    (∀ (s : LM) (L : Nat) (key : Option String), logFilesFor s key ≠ [] →
        (readLogs s L key).totalLogs
          = ((logFilesFor s key).length - 1) * s.maxLogsPerFile + registryCount s key) ∧
    ∀ (ops : List (String × Option String)) (L : Nat),
        (readLogs (restart (runAppends lmInit ops).fs) L none).totalLogs
          = (ops.length / MAX_LOGS_PER_FILE) * MAX_LOGS_PER_FILE :=
  ⟨readLogs_totalLogs, readLogs_restart_totalLogs⟩

theorem C5_witness :
    ((readLogs lmInit 1 none).totalLogs
        = ((logFilesFor lmInit none).length - 1) * lmInit.maxLogsPerFile
            + registryCount lmInit none) ∧
    (readLogs (restart (runAppends lmInit [("x", none)]).fs) 1 none).totalLogs
        = ([(("x", none) : String × Option String)].length / MAX_LOGS_PER_FILE) * MAX_LOGS_PER_FILE :=
  ⟨C5_totalLogs_amended.1 lmInit 1 none (by decide),
   C5_totalLogs_amended.2 [("x", none)] 1⟩

/-- C6 counterexample: with a failing default-stream write on a fresh
manager, the promise returned by appendLog resolves - it does not reject:
the write error is caught inside appendLog, logged, and swallowed, so
nothing is propagated to the caller. -/
theorem C6_counterexample_swallowed :
    (appendLogF lmInit "e1" none true false).2 = Outcome.resolved ∧
    (appendLogF lmInit "e1" none true false).2 ≠ Outcome.rejected ∧
    (appendLogF lmInit "e1" none true false).1.errors
      = ["Failed to append log: write error"] := by
  decide

/-- C6 amended: when the underlying default-stream write fails, appendLog
logs the error and resolves normally (the rejection is caught by the
try/catch inside appendLog and never reaches the caller); the state is
otherwise untouched, so no other stream handle is closed or corrupted and
the process does not crash. -/
theorem C6_write_error_logged_and_swallowed (s : LM) (e : String)
    (cid : Option String) (cf : Bool) (h : s.writeStream = true) :
    appendLogF s e cid true cf
      = ({ s with errors := s.errors ++ ["Failed to append log: write error"] },
         Outcome.resolved) := by
  unfold appendLogF
  rw [h]
  simp

theorem C6_witness :
    appendLogF lmInit "e1" none true false
      = ({ lmInit with errors := lmInit.errors ++ ["Failed to append log: write error"] },
         Outcome.resolved) :=
  C6_write_error_logged_and_swallowed lmInit "e1" none false (by decide)

/-- C7: readLogs on a stream key with no matching segment files on disk
returns the successful empty result for every limit; the read path of the
model is total, so nothing is thrown. -/
theorem C7_empty_stream_read (s : LM) (key : Option String) (L : Nat)
    (h : s.fs.filter (fun f => decide (f.key = key)) = []) :
    readLogs s L key = ⟨[], 0, 0⟩ :=
  readLogs_noFiles s key L h

theorem C7_witness : readLogs lmInit 5 (some "a") = ⟨[], 0, 0⟩ :=
  C7_empty_stream_read lmInit (some "a") 5 (by decide)

/-- C8 counterexample: with 101 appended entries, the consumer tool invoked
without a limit returns 100 entries while totalLogs is 101, so the omitted
limit does not default to the full history. -/
theorem C8_counterexample_default_100 :
    (getConsoleLogs (runAppends lmInit (List.replicate 101 ("x", none))) none none).logs.length
        = 100 ∧
    (getConsoleLogs (runAppends lmInit (List.replicate 101 ("x", none))) none none).totalLogs
        = 101 := by
  have hnb : ∀ p ∈ List.replicate 101 (("x", none) : String × Option String),
      isBlankLine p.1 = false := by
    intro p hp
    rw [List.eq_of_mem_replicate hp]
    decide
  have h := readLogs_runAppends (List.replicate 101 ("x", none)) hnb 100
  unfold getConsoleLogs
  rw [show ((none : Option Nat).getD 100) = 100 from rfl, h]
  dsimp only
  rw [List.length_drop, List.length_map, List.length_replicate]
  constructor <;> decide

/-- C8 amended: the omitted limit of the get-console-logs tool defaults to
the fixed number 100 (readLogs itself has no default), so a read without a
limit returns the most recent 100 entries - the full history only when the
stream holds at most 100 entries. -/
theorem C8_default_limit_100 (ops : List (String × Option String))
    (hnb : ∀ p ∈ ops, isBlankLine p.1 = false) :
    (getConsoleLogs (runAppends lmInit ops) none none).logs
      = (ops.map (·.1)).drop (ops.length - 100) := by
  unfold getConsoleLogs
  rw [show ((none : Option Nat).getD 100) = 100 from rfl, readLogs_runAppends ops hnb 100]

theorem C8_witness :
    (getConsoleLogs (runAppends lmInit opsABC) none none).logs
      = (opsABC.map (·.1)).drop (opsABC.length - 100) :=
  C8_default_limit_100 opsABC (by decide)

/-- C9: limit 0 returns the empty window together with the correct total
count: the number of appended entries for the default stream of any
producer run, and 0 for every checkpoint stream (see C1). -/
theorem C9_zero_limit (ops : List (String × Option String))
    (hnb : ∀ p ∈ ops, isBlankLine p.1 = false) :
    ((readLogs (runAppends lmInit ops) 0 none).logs = [] ∧
     (readLogs (runAppends lmInit ops) 0 none).totalLogs = ops.length) ∧
    ∀ c, (readLogs (runAppends lmInit ops) 0 (some c)).logs = []
      ∧ (readLogs (runAppends lmInit ops) 0 (some c)).totalLogs = 0 := by
  refine ⟨⟨?_, ?_⟩, ?_⟩
  · rw [readLogs_runAppends ops hnb 0]
    dsimp only
    rw [Nat.sub_zero]
    rw [show ops.length = (ops.map (·.1)).length from (List.length_map _ _).symm]
    exact List.drop_length _
  · rw [readLogs_runAppends ops hnb 0]
  · intro c
    rw [readLogs_runAppends_chk ops 0 c]
    exact ⟨rfl, rfl⟩

theorem C9_witness :
    ((readLogs (runAppends lmInit opsABC) 0 none).logs = [] ∧
     (readLogs (runAppends lmInit opsABC) 0 none).totalLogs = opsABC.length) ∧
    ∀ c, (readLogs (runAppends lmInit opsABC) 0 (some c)).logs = []
      ∧ (readLogs (runAppends lmInit opsABC) 0 (some c)).totalLogs = 0 :=
  C9_zero_limit opsABC (by decide)

/-- C10: writePosition equals the in-memory record count of the newest
segment of the queried stream: the manager counter for the default stream,
and the registry count for a checkpoint stream (0 when the key is absent
from the registry, which in every reachable state it is). -/
theorem C10_writePosition (ops : List (String × Option String))
    (hnb : ∀ p ∈ ops, isBlankLine p.1 = false) (L : Nat) :
    ((readLogs (runAppends lmInit ops) L none).writePosition
        = (runAppends lmInit ops).currentLogCount) ∧
    ∀ c, (readLogs (runAppends lmInit ops) L (some c)).writePosition
        = (match mapGet (runAppends lmInit ops).checkpointStreams c with
           | some d => d.currentLogCount
           | none => 0) := by
  obtain ⟨hmax, hws, hnum, hcnt, hmap, hfs⟩ := LMInv_lmInit_run ops
  rw [List.length_map] at hcnt
  constructor
  · rw [readLogs_runAppends ops hnb L, hcnt]
  · intro c
    rw [readLogs_runAppends_chk ops L c, hmap]
    rfl

theorem C10_witness :
    ((readLogs (runAppends lmInit opsABC) 1 none).writePosition
        = (runAppends lmInit opsABC).currentLogCount) ∧
    ∀ c, (readLogs (runAppends lmInit opsABC) 1 (some c)).writePosition
        = (match mapGet (runAppends lmInit opsABC).checkpointStreams c with
           | some d => d.currentLogCount
           | none => 0) :=
  C10_writePosition opsABC (by decide) 1
